import Mathlib

/-!
noteist: completed-task report for a Todoist project

A shallow embedding of `main.go` and a verification of its formatting,
lookup and request logic.

Go strings are modelled as Lean strings (sequences of characters).  The parts
of the Go standard library the program calls (package `time`, the HTTP
transport, the JSON decoder, `strings.EqualFold`) are modelled in the first
sections or taken as parameters; the program itself follows in the later
sections, function by function, under the names it has in the source.
-/

namespace Noteist

/-! ## Package time: locations and instants -/

/-- The zone in force at an instant: its offset in seconds east of UTC and the
half-open interval of Unix seconds `[start, stop)` during which it applies. -/
structure Zone where
  offset : Int
  start : Int
  stop : Int

/-- A `*time.Location`: the map from a Unix instant to the zone in force. -/
structure Location where
  lookup : Int → Zone

/-- Smallest instant of a zone table (`alpha` in package time). -/
def zoneAlpha : Int := -(2 ^ 63)

/-- Largest instant of a zone table (`omega` in package time). -/
def zoneOmega : Int := 2 ^ 63 - 1

/-- The location `time.UTC`. -/
def UTC : Location := ⟨fun _ => ⟨0, zoneAlpha, zoneOmega⟩⟩

/-- The location `time.FixedZone(name, offset)`: one zone for all instants. -/
def FixedZone (offset : Int) : Location := ⟨fun _ => ⟨offset, zoneAlpha, zoneOmega⟩⟩

/-- A `time.Time`: Unix seconds, nanoseconds within the second (below 10^9, so
that no carry into the seconds arises), and the location used to present
it. -/
structure Time where
  sec : Int
  nsec : Nat
  loc : Location

/-- Unix seconds of January 1, year 1, 00:00:00 UTC. -/
def zeroSec : Int := -62135596800

/-- The zero value `time.Time{}`: January 1, year 1, 00:00:00 UTC. -/
def Time.zero : Time := ⟨zeroSec, 0, UTC⟩

/-- Leap-year test `isLeap` of package time. -/
def isLeap (year : Int) : Bool :=
  year % 4 == 0 && (year % 100 != 0 || year % 400 == 0)

/-- The table `daysBefore` of package time: days of a non-leap year before the
end of month `m` (`daysBefore 0 = 0`, `daysBefore 12 = 365`). -/
def daysBefore : Nat → Nat
  | 0 => 0
  | 1 => 31
  | 2 => 59
  | 3 => 90
  | 4 => 120
  | 5 => 151
  | 6 => 181
  | 7 => 212
  | 8 => 243
  | 9 => 273
  | 10 => 304
  | 11 => 334
  | _ => 365

/-- The function `daysIn` of package time: the number of days of a month. -/
def daysIn (month : Nat) (year : Int) : Nat :=
  if month = 2 ∧ isLeap year then 29 else daysBefore month - daysBefore (month - 1)

/-- Days from 0001-01-01 to 1970-01-01. -/
def daysToUnixEpoch : Int := 719162

/-- Days from 1970-01-01 to January 1 of `year` (`daysSinceEpoch` of package
time, rebased to the Unix epoch). -/
def daysSinceEpoch (year : Int) : Int :=
  let y := year - 1
  365 * y + y / 4 - y / 100 + y / 400 - daysToUnixEpoch

/-- Days from 1970-01-01 to the given day of the given month (1..12); the day
of the month enters linearly, so it may lie outside the month as in `Date`. -/
def daysFromCivil (year : Int) (month : Nat) (day : Int) : Int :=
  daysSinceEpoch year + (daysBefore (month - 1) : Int)
    + (if isLeap year ∧ 3 ≤ month then 1 else 0) + (day - 1)

/-- A calendar date and clock reading. -/
structure Civil where
  year : Int
  month : Nat
  day : Nat
  hour : Nat
  min : Nat
  sec : Nat
deriving DecidableEq, Repr

/-- The year and the zero-based day of the year of a day count since
1970-01-01 (first half of `absDate`: 400-, 100-, 4- and 1-year cycles). -/
def yearDay (days : Int) : Int × Nat :=
  let d := days + daysToUnixEpoch
  let n400 := d / 146097
  let d1 := d - 146097 * n400
  let n100 := d1 / 36524
  let n100 := n100 - n100 / 4
  let d2 := d1 - 36524 * n100
  let n4 := d2 / 1461
  let d3 := d2 - 1461 * n4
  let n1 := d3 / 365
  let n1 := n1 - n1 / 4
  let d4 := d3 - 365 * n1
  (400 * n400 + 100 * n100 + 4 * n4 + n1 + 1, d4.toNat)

/-- Month (1..12) and day of the month of a zero-based day of the year (second
half of `absDate`). -/
def monthDay (year : Int) (yday : Nat) : Nat × Nat :=
  if isLeap year ∧ yday = 31 + 29 - 1 then (2, 29)
  else
    let day := if isLeap year ∧ yday > 31 + 29 - 1 then yday - 1 else yday
    let month := day / 31
    let stop := daysBefore (month + 1)
    if day ≥ stop then (month + 2, day - stop + 1)
    else (month + 1, day - daysBefore month + 1)

/-- Seconds since the Unix epoch of the wall clock shown in the location of
the time (`locabs`). -/
def Time.abs (t : Time) : Int := t.sec + (t.loc.lookup t.sec).offset

/-- Calendar date and clock of a time in its own location (`Date`, `Clock`). -/
def Time.civil (t : Time) : Civil :=
  let a := t.abs
  let yd := yearDay (a / 86400)
  let md := monthDay yd.1 yd.2
  let s := (a % 86400).toNat
  ⟨yd.1, md.1, md.2, s / 3600, s % 3600 / 60, s % 60⟩

/-- The decimal digit character of a number below ten. -/
def digitChar (d : Nat) : Char :=
  match d with
  | 0 => '0'
  | 1 => '1'
  | 2 => '2'
  | 3 => '3'
  | 4 => '4'
  | 5 => '5'
  | 6 => '6'
  | 7 => '7'
  | 8 => '8'
  | _ => '9'

/-- Decimal digits of a natural number, most significant first; the first
argument bounds the number of digits. -/
def natDigits : Nat → Nat → List Char
  | 0, _ => []
  | fuel + 1, n => if n < 10 then [digitChar n] else natDigits fuel (n / 10) ++ [digitChar (n % 10)]

/-- Decimal numeral of a natural number. -/
def natString (n : Nat) : List Char := natDigits (n + 1) n

/-- The function `appendInt` of package time: the decimal form of `x`,
zero-padded to `width` digits, with a minus sign when negative. -/
def appendInt (x : Int) (width : Nat) : List Char :=
  let s := natString x.natAbs
  (if x < 0 then ['-'] else []) ++ List.replicate (width - s.length) '0' ++ s

/-- Layout interpretation of `Time.Format` for the verbs used by this program:
`2006` (year), `01` (month), `02` (day), `15` (hour), `04` (minute), `05`
(second); every other character of these layouts is copied, in particular a
`Z` that is not followed by `07`. -/
def formatLayout (c : Civil) : List Char → List Char
  | '2' :: '0' :: '0' :: '6' :: rest => appendInt c.year 4 ++ formatLayout c rest
  | '0' :: '1' :: rest => appendInt c.month 2 ++ formatLayout c rest
  | '0' :: '2' :: rest => appendInt c.day 2 ++ formatLayout c rest
  | '1' :: '5' :: rest => appendInt c.hour 2 ++ formatLayout c rest
  | '0' :: '4' :: rest => appendInt c.min 2 ++ formatLayout c rest
  | '0' :: '5' :: rest => appendInt c.sec 2 ++ formatLayout c rest
  | ch :: rest => ch :: formatLayout c rest
  | [] => []

/-- The method `Time.Format`: the time shown in its own location. -/
def Time.Format (t : Time) (layout : String) : String :=
  ⟨formatLayout t.civil layout.data⟩

/-- The method `Time.In`: the same instant presented in another location. -/
def Time.In (t : Time) (loc : Location) : Time := ⟨t.sec, t.nsec, loc⟩

/-- The method `Time.UTC`. -/
def Time.toUTC (t : Time) : Time := t.In UTC


/-! ## Package time: construction and parsing -/

/-- The function `time.Date`: the instant whose wall clock in `loc` shows the
given fields.  Month, hour, minute and second are normalised by carrying into
the next unit; the day of the month is added linearly.  The offset is found by
looking the wall clock up as if it were UTC and looking again when the result
falls outside the zone that was found. -/
def Date (year month day hour min sec : Int) (nsec : Nat) (loc : Location) : Time :=
  let m := month - 1
  let year := year + m / 12
  let m := m % 12
  let min := min + sec / 60
  let sec := sec % 60
  let hour := hour + min / 60
  let min := min % 60
  let day := day + hour / 24
  let hour := hour % 24
  let unix := daysFromCivil year (m.toNat + 1) day * 86400 + hour * 3600 + min * 60 + sec
  let z := loc.lookup unix
  let unix :=
    if z.offset ≠ 0 then
      let utc := unix - z.offset
      if utc < z.start ∨ utc ≥ z.stop then unix - (loc.lookup utc).offset else unix - z.offset
    else unix
  ⟨unix, nsec, loc⟩

/-- The method `Time.AddDate`. -/
def Time.AddDate (t : Time) (years months days : Int) : Time :=
  let c := t.civil
  Date (c.year + years) (c.month + months) (c.day + days) c.hour c.min c.sec t.nsec t.loc

/-- Test for a decimal digit (`isDigit` of package time). -/
def isDigit (c : Char) : Bool := '0' ≤ c && c ≤ '9'

/-- Value of a decimal digit. -/
def digitVal (c : Char) : Nat := c.toNat - 48

/-- The function `getnum` of package time: a one- or two-digit number at the
head of the input, two digits exactly when `fixed`. -/
def getnum (s : List Char) (fixed : Bool) : Option (Nat × List Char) :=
  match s with
  | [] => none
  | c0 :: rest =>
    if !isDigit c0 then none
    else
      match rest with
      | c1 :: rest1 =>
        if isDigit c1 then some (digitVal c0 * 10 + digitVal c1, rest1)
        else if fixed then none else some (digitVal c0, rest)
      | [] => if fixed then none else some (digitVal c0, rest)

/-- Literal layout text: the input must start with the given character
(`skip` of package time for a one-character prefix other than a space). -/
def skipChar (c : Char) (s : List Char) : Option (List Char) :=
  match s with
  | d :: rest => if d = c then some rest else none
  | [] => none

/-- Value of a digit string read as a decimal number. -/
def digitsVal (ds : List Char) : Nat := ds.foldl (fun acc c => acc * 10 + digitVal c) 0

/-- The function `parseNanoseconds` of package time applied to the digits that
follow the decimal separator: at most nine digits count, read as a fraction of
a second. -/
def parseNanoseconds (ds : List Char) : Nat :=
  let ds := ds.take 9
  digitsVal ds * 10 ^ (9 - ds.length)

/-- The time-zone element `Z07:00` of the layout: either `Z` (UTC, no offset
recorded) or a sign, two digits, a colon and two digits, with hours up to 24
and minutes up to 60 accepted. -/
def parseZone (s : List Char) : Option (Option Int × List Char) :=
  match s with
  | 'Z' :: rest => some (none, rest)
  | sign :: h1 :: h2 :: colon :: m1 :: m2 :: rest =>
    if colon ≠ ':' then none
    else
      match getnum [h1, h2] true, getnum [m1, m2] true with
      | some (hr, _), some (mm, _) =>
        if hr > 24 ∨ mm > 60 then none
        else if sign = '+' then some (some (((hr * 60 + mm) * 60 : Nat) : Int), rest)
        else if sign = '-' then some (some (-(((hr * 60 + mm) * 60 : Nat) : Int)), rest)
        else none
      | _, _ => none
  | _ => none

/-- Fields read from a timestamp: the calendar date and clock as written, the
nanoseconds, and the zone offset (absent for `Z`). -/
structure Parsed where
  year : Nat
  month : Nat
  day : Nat
  hour : Nat
  min : Nat
  sec : Nat
  nsec : Nat
  zone : Option Int
deriving DecidableEq, Repr

/-- A check of the parser: failure when the condition does not hold. -/
def check (ok : Bool) : Option Unit := if ok then some () else none

/-- The element `2006` of the layout: exactly four digits. -/
def parseYear (s : List Char) : Option (Nat × List Char) :=
  match s with
  | y1 :: y2 :: y3 :: y4 :: rest =>
    if isDigit y1 && isDigit y2 && isDigit y3 && isDigit y4 then
      some (digitsVal [y1, y2, y3, y4], rest)
    else none
  | _ => none

/-- The fractional second that may follow the seconds although the layout has
none: a period or a comma and at least one digit; all digits that follow are
consumed. -/
def parseFraction (s : List Char) : Nat × List Char :=
  match s with
  | sep :: d :: rest =>
    if (sep = '.' ∨ sep = ',') ∧ isDigit d = true then
      (parseNanoseconds (d :: rest.takeWhile isDigit), rest.dropWhile isDigit)
    else (0, s)
  | _ => (0, s)

/-- The date elements `2006-01-02` of the layout: year, month (1..12) and a
two-digit day, with the rest of the input. -/
def parseDate (s : List Char) : Option (Nat × Nat × Nat × List Char) :=
  (parseYear s).bind fun y =>
  (skipChar '-' y.2).bind fun s =>
  (getnum s true).bind fun m =>
  (check (decide (0 < m.1 ∧ m.1 ≤ 12))).bind fun _ =>
  (skipChar '-' m.2).bind fun s =>
  (getnum s true).bind fun d =>
  some (y.1, m.1, d.1, d.2)

/-- The clock elements `15:04:05` of the layout: an hour of one or two digits
below 24, minute and second of two digits below 60, then the fractional second
if there is one; with the nanoseconds and the rest of the input. -/
def parseClock (s : List Char) : Option (Nat × Nat × Nat × Nat × List Char) :=
  (getnum s false).bind fun h =>
  (check (decide (h.1 < 24))).bind fun _ =>
  (skipChar ':' h.2).bind fun s =>
  (getnum s true).bind fun mi =>
  (check (decide (mi.1 < 60))).bind fun _ =>
  (skipChar ':' mi.2).bind fun s =>
  (getnum s true).bind fun sec =>
  (check (decide (sec.1 < 60))).bind fun _ =>
  some (h.1, mi.1, sec.1, parseFraction sec.2)

/-- The field-reading loop of `time.Parse` for the layout `time.RFC3339`
(`2006-01-02T15:04:05Z07:00`): the date, a `T`, the clock, the zone, and
nothing after it.  Range errors (month, hour, minute, second, zone) and the
final check of the day against the length of the month are failures. -/
def parseFields (s : List Char) : Option Parsed :=
  (parseDate s).bind fun d =>
  (skipChar 'T' d.2.2.2).bind fun s =>
  (parseClock s).bind fun c =>
  (parseZone c.2.2.2.2).bind fun z =>
  (check (decide (z.2 = []))).bind fun _ =>
  (check (decide (1 ≤ d.2.2.1 ∧ d.2.2.1 ≤ daysIn d.2.1 d.1))).bind fun _ =>
  some ⟨d.1, d.2.1, d.2.2.1, c.1, c.2.1, c.2.2.1, c.2.2.2.1, z.1⟩

/-- The end of `time.Parse`: with `Z` the time is built in UTC; with a numeric
offset it is built in UTC, moved back by the offset, and presented in `local`
when `local` has that offset at that instant, otherwise in a fixed zone of that
offset. -/
def Parsed.toTime (p : Parsed) (loc : Location) : Time :=
  match p.zone with
  | none => Date p.year p.month p.day p.hour p.min p.sec p.nsec UTC
  | some zoneOffset =>
    let t := Date p.year p.month p.day p.hour p.min p.sec p.nsec UTC
    let sec := t.sec - zoneOffset
    if (loc.lookup sec).offset = zoneOffset then ⟨sec, t.nsec, loc⟩
    else ⟨sec, t.nsec, FixedZone zoneOffset⟩

/-- The call `time.Parse(time.RFC3339, value)` in a process whose local
location is `loc`; `none` stands for a parse error.  (The RFC 3339 fast path
of recent Go releases returns the same time on every input it accepts and
defers to this parser on the others.) -/
def Parse (loc : Location) (value : String) : Option Time :=
  (parseFields value.data).map fun p => p.toTime loc


/-! ## The environment of the program -/

/-- A byte sequence (`[]byte`). -/
abbrev Bytes := List UInt8

/-- A Go `error`, represented by its message. -/
abbrev Error := String

/-- Equality of results is decidable when equality of errors and of values
is. -/
instance instDecidableEqExcept (ε α : Type) [DecidableEq ε] [DecidableEq α] :
    DecidableEq (Except ε α)
  | .error a, .error b =>
    if h : a = b then isTrue (congrArg Except.error h)
    else isFalse fun h2 => h (Except.error.inj h2)
  | .ok a, .ok b =>
    if h : a = b then isTrue (congrArg Except.ok h)
    else isFalse fun h2 => h (Except.ok.inj h2)
  | .error _, .ok _ => isFalse fun h => Except.noConfusion h
  | .ok _, .error _ => isFalse fun h => Except.noConfusion h

/-- An `*http.Request` as built by `request`: method, URL, headers and the
query parameters added to the URL. -/
structure Request where
  method : String
  url : String
  header : List (String × String)
  query : List (String × String)
deriving DecidableEq, Repr

/-- An `*http.Response`: the status code and the outcome of reading the body
to its end (`io.ReadAll(resp.Body)`). -/
structure Response where
  StatusCode : Nat
  Body : Except Error Bytes
deriving DecidableEq

/-- The `*http.Client` together with request construction: `NewRequest` gives
the error of `http.NewRequest`, if any; `Do` gives the outcome of the round
trip of the request sent as number `n` (0, 1, ...) of the run. -/
structure HTTPClient where
  NewRequest : String → String → Option Error
  Do : Nat → Request → Except Error Response

/-- Project represents a Todoist project. -/
structure Project where
  ID : String
  Name : String
deriving DecidableEq, Repr

/-- Task represents a completed Todoist task; `ParentID` is the nullable
`parent_id`. -/
structure Task where
  ID : String
  Content : String
  Description : String
  CompletedAt : String
  ParentID : Option String
deriving DecidableEq, Repr

/-- The zero value `Task{}`, the previous task of the first call. -/
def Task.zero : Task := ⟨"", "", "", "", none⟩

/-- What the process takes from its surroundings: the environment variables,
the local time zone, the clock (reading number `k` of the run, as Unix seconds
and nanoseconds), the HTTP client, the JSON decoder at the two envelope types,
and the table of simple Unicode case folding, given as the map that sends a
character to the representative of its folding orbit. -/
structure Runtime where
  Getenv : String → String
  Local : Location
  clock : Nat → Int × Nat
  http : HTTPClient
  UnmarshalProjects : Bytes → Except Error (List Project)
  UnmarshalTasks : Bytes → Except Error (List Task)
  foldKey : Char → Char

/-- The call `time.Now()`, reading number `k` of the run: the clock reading in
the local location. -/
def Runtime.Now (rt : Runtime) (k : Nat) : Time := ⟨(rt.clock k).1, (rt.clock k).2, rt.Local⟩

/-- The function `strings.EqualFold`: the two strings have the same length in
characters and corresponding characters lie in the same case-folding orbit. -/
def EqualFold (foldKey : Char → Char) (s t : String) : Bool :=
  s.data.map foldKey == t.data.map foldKey

/-! ## main.go -/

/-- Base URL of the API. -/
def apiBaseURL : String := "https://api.todoist.com/api/v1"

/-- TodoistClient handles API interactions with Todoist. -/
structure TodoistClient where
  apiToken : String
  client : HTTPClient

/-- NewTodoistClient creates a new Todoist client. -/
def NewTodoistClient (rt : Runtime) (apiToken : String) : TodoistClient := ⟨apiToken, rt.http⟩

/-- The request that `request` sends. -/
def TodoistClient.buildRequest (c : TodoistClient) (method endpoint : String)
    (params : List (String × String)) : Request :=
  ⟨method, apiBaseURL ++ "/" ++ endpoint,
    [("Authorization", "Bearer " ++ c.apiToken), ("Content-Type", "application/json")],
    if params.length > 0 then params else []⟩

/-- The method `request` makes a generic API request, sent as request number
`n` of the run. -/
def TodoistClient.request (c : TodoistClient) (n : Nat) (method endpoint : String)
    (params : List (String × String)) : Except Error Bytes :=
  match c.client.NewRequest method (apiBaseURL ++ "/" ++ endpoint) with
  | some err => .error ("creating request: " ++ err)
  | none =>
    match c.client.Do n (c.buildRequest method endpoint params) with
    | .error err => .error ("making request: " ++ err)
    | .ok resp =>
      if resp.StatusCode ≠ 200 then
        .error ("API returned status code " ++ String.mk (natString resp.StatusCode))
      else
        match resp.Body with
        | .error err => .error ("reading response: " ++ err)
        | .ok body => .ok body

/-- GetProjects fetches all projects. -/
def TodoistClient.GetProjects (rt : Runtime) (c : TodoistClient) (n : Nat) :
    Except Error (List Project) :=
  match c.request n "GET" "projects" [] with
  | .error err => .error err
  | .ok body =>
    match rt.UnmarshalProjects body with
    | .error err => .error ("unmarshaling projects: " ++ err)
    | .ok results => .ok results

/-- The loop of `FindProjectByName`: the first project whose name folds to the
query, with the line printed when it is found. -/
def findLoop (rt : Runtime) (name : String) : List Project → String × Option Project
  | [] => ("", none)
  | project :: rest =>
    if EqualFold rt.foldKey project.Name name then
      ("Found project: " ++ project.Name ++ " (ID: " ++ project.ID ++ ")\n", some project)
    else findLoop rt name rest

/-- FindProjectByName finds a project by name (case-insensitive); the result
is the text written to standard output and the returned pair, `.ok none` being
`(nil, nil)`. -/
def TodoistClient.FindProjectByName (rt : Runtime) (c : TodoistClient) (n : Nat)
    (name : String) : String × Except Error (Option Project) :=
  match c.GetProjects rt n with
  | .error err => ("", .error err)
  | .ok projects => ((findLoop rt name projects).1, .ok (findLoop rt name projects).2)

/-- The parameters `GetCompletedTasks` passes to `request`; `now` is the
reading of `time.Now()` taken there. -/
def completedTasksParams (projectID : String) (since now : Time) : List (String × String) :=
  [("project_id", projectID),
   ("since", since.Format "2006-01-02T15:04:05Z"),
   ("until", now.Format "2006-01-02T15:04:05Z")]

/-- GetCompletedTasks fetches completed tasks for a project since a given
date; `k` numbers the clock reading. -/
def TodoistClient.GetCompletedTasks (rt : Runtime) (c : TodoistClient) (n k : Nat)
    (projectID : String) (since : Time) : Except Error (List Task) :=
  match c.request n "GET" "tasks/completed/by_completion_date"
      (completedTasksParams projectID since (rt.Now k)) with
  | .error err => .error err
  | .ok body =>
    match rt.UnmarshalTasks body with
    | .error err => .error ("unmarshaling tasks: " ++ err)
    | .ok items => .ok items

/-- The bullet of a task line. -/
def bullet (task : Task) : String := if task.ParentID ≠ none then "  - " else "* "

/-- The time `formatTask` shows: the parsed `CompletedAt`, or the zero time
when parsing fails (the error is discarded). -/
def completedAt (loc : Location) (task : Task) : Time :=
  match Parse loc task.CompletedAt with
  | some t => t
  | none => Time.zero

/-- The task line that `formatTask` builds first: bullet, content and the
completion time. -/
def taskLine (loc : Location) (task : Task) : String :=
  bullet task ++ task.Content ++ " (completed: "
    ++ (completedAt loc task).Format "2006-01-02 15:04:05" ++ ")"

/-- The function `formatTask` formats a task for display; `loc` is the local
location of the process, which `time.Parse` consults. -/
def formatTask (loc : Location) (prevTask task : Task) : String :=
  let result := taskLine loc task
  let result :=
    if prevTask.ParentID ≠ none ∧ task.ParentID = none then "\n" ++ result else result
  let result :=
    if task.Description ≠ "" then
      result ++ ("\n" ++ String.mk (List.replicate (bullet task).length ' ') ++ task.Description ++ "\n")
    else result
  result

/-- The final loop of `main`: each task is formatted against the previous one
and printed with `fmt.Println`. -/
def printTasks (loc : Location) : Task → List Task → String
  | _, [] => ""
  | prevTask, task :: rest => formatTask loc prevTask task ++ "\n" ++ printTasks loc task rest

/-- The header `main` prints before the task blocks: an empty line and the
title with the date range, the rule of 56 equals signs, and the total followed
by an empty line (`Total completed: %d\n\n`). -/
def reportHeader (oneWeekAgo now : Time) (total : Nat) : String :=
  "\n\u00f0\u0178\u201c\u2039 Completed Tasks in #Canopy (" ++ oneWeekAgo.Format "2006-01-02"
    ++ " to " ++ now.Format "2006-01-02" ++ ")\n"
    ++ String.mk (List.replicate 56 '=') ++ "\n"
    ++ "Total completed: " ++ String.mk (natString total) ++ "\n\n"

/-- The function `main`: the text written to standard output and the exit
code. -/
def main (rt : Runtime) : String × Nat :=
  let apiToken := rt.Getenv "TODOIST_API_TOKEN"
  if apiToken = "" then
    ("Error: TODOIST_API_TOKEN environment variable is not set\n", 1)
  else
    let client := NewTodoistClient rt apiToken
    match client.FindProjectByName rt 0 "Canopy" with
    | (out, .error err) => (out ++ "Error fetching projects: " ++ err ++ "\n", 1)
    | (out, .ok none) =>
      let out := out ++ "Error: Could not find project named \x27Canopy\x27\n"
      match client.GetProjects rt 1 with
      | .error err => (out ++ "Error fetching projects: " ++ err ++ "\n", 1)
      | .ok projects =>
        (out ++ "Available projects:\n"
          ++ String.join (projects.map fun p => "  - " ++ p.Name ++ "\n"), 1)
    | (out, .ok (some project)) =>
      let oneWeekAgo := (rt.Now 0).AddDate 0 0 (-7)
      match client.GetCompletedTasks rt 1 1 project.ID oneWeekAgo with
      | .error err => (out ++ "Error fetching completed tasks: " ++ err ++ "\n", 1)
      | .ok tasks =>
        if tasks.length = 0 then
          (out ++ "No completed tasks found in the last week.\n", 0)
        else
          (out ++ reportHeader oneWeekAgo (rt.Now 2) tasks.length
            ++ printTasks rt.Local Task.zero tasks, 0)

/-- ASCII case folding, an instance of the folding table on ASCII text. -/
def asciiFold (c : Char) : Char :=
  if 'A' ≤ c ∧ c ≤ 'Z' then Char.ofNat (c.toNat + 32) else c

/-! ## Notions used to state the properties -/

/-- The shape `YYYY-MM-DD HH:MM:SS`: nineteen characters, digits except for
the two hyphens, the blank and the two colons. -/
def isTimestamp (s : String) : Bool :=
  match s.data with
  | [y1, y2, y3, y4, a, m1, m2, b, d1, d2, c, h1, h2, d, n1, n2, e, s1, s2] =>
    isDigit y1 && isDigit y2 && isDigit y3 && isDigit y4 && a == '-'
      && isDigit m1 && isDigit m2 && b == '-' && isDigit d1 && isDigit d2 && c == ' '
      && isDigit h1 && isDigit h2 && d == ':' && isDigit n1 && isDigit n2 && e == ':'
      && isDigit s1 && isDigit s2
  | _ => false

/-- Number of newline characters at the end of a text. -/
def trailingNewlines (s : List Char) : Nat := (s.reverse.takeWhile (· == '\n')).length

/-- Number of blank lines that directly precede the line starting after the
text `before`: the newlines ending `before`, less the one that terminates the
last non-blank line (all of them when `before` holds nothing but newlines). -/
def blankLinesBefore (before : String) : Nat :=
  if before.data.all (· == '\n') then before.data.length else trailingNewlines before.data - 1

/-- A sample HTTP client: the project list answers with status 200 and body
`[1]`, the completed-task query with status 200 and body `[2]`, every other
URL with status 404. -/
def sampleHTTP : HTTPClient :=
  ⟨fun _ _ => none, fun _ req =>
    if req.url = "https://api.todoist.com/api/v1/projects" then .ok ⟨200, .ok [1]⟩
    else if req.url = "https://api.todoist.com/api/v1/tasks/completed/by_completion_date" then
      .ok ⟨200, .ok [2]⟩
    else .ok ⟨404, .ok []⟩⟩

/-- A sample run: the token is set, the local zone is two hours east of UTC,
the clock stands at 2024-06-10 10:00:00 UTC, the account has the projects
Inbox and Canopy, and no task was completed. -/
def sampleRuntime : Runtime :=
  ⟨fun key => if key = "TODOIST_API_TOKEN" then "secret" else "", FixedZone 7200,
    fun _ => (1718013600, 0), sampleHTTP,
    fun _ => .ok [⟨"7", "Inbox"⟩, ⟨"42", "Canopy"⟩], fun _ => .ok [], asciiFold⟩

/-- The client of the sample run. -/
def sampleClient : TodoistClient := NewTodoistClient sampleRuntime "secret"

/-- A sample top-level task. -/
def sampleA : Task := ⟨"1", "a", "", "2024-01-15T10:30:00Z", none⟩

/-- A sample subtask of `sampleA` with a description. -/
def sampleS : Task := ⟨"2", "s", "note", "2024-01-15T11:00:00Z", some "1"⟩

/-- A sample subtask of `sampleA` without a description. -/
def sampleT : Task := ⟨"5", "t", "", "2024-01-15T11:00:00Z", some "1"⟩

/-- A sample top-level task following the subtask. -/
def sampleB : Task := ⟨"3", "b", "", "2024-01-16T09:00:00Z", none⟩

/-- The function `monthDay` with the leap-year test already evaluated. -/
def monthDayOf (leap : Bool) (yday : Nat) : Nat × Nat :=
  if leap = true ∧ yday = 31 + 29 - 1 then (2, 29)
  else
    let day := if leap = true ∧ yday > 31 + 29 - 1 then yday - 1 else yday
    let month := day / 31
    let stop := daysBefore (month + 1)
    if day ≥ stop then (month + 2, day - stop + 1)
    else (month + 1, day - daysBefore month + 1)

/-- The function `daysIn` with the leap-year test already evaluated. -/
def daysInOf (month : Nat) (leap : Bool) : Nat :=
  if month = 2 ∧ leap = true then 29 else daysBefore month - daysBefore (month - 1)

/-- The sample run with three completed tasks: a top-level task, a subtask
with a description, a top-level task. -/
def reportRuntime : Runtime :=
  ⟨sampleRuntime.Getenv, sampleRuntime.Local, sampleRuntime.clock, sampleRuntime.http,
    sampleRuntime.UnmarshalProjects, fun _ => .ok [sampleA, sampleS, sampleB],
    sampleRuntime.foldKey⟩

/-- The sample run with three completed tasks: a top-level task, a subtask
without a description, a top-level task. -/
def gapRuntime : Runtime :=
  ⟨sampleRuntime.Getenv, sampleRuntime.Local, sampleRuntime.clock, sampleRuntime.http,
    sampleRuntime.UnmarshalProjects, fun _ => .ok [sampleA, sampleT, sampleB],
    sampleRuntime.foldKey⟩

/-- A sample client whose transport answers every request with status 200 and
a body whose reading breaks off. -/
def truncatedClient : TodoistClient :=
  ⟨"secret", ⟨fun _ _ => none, fun _ _ => .ok ⟨200, .error "unexpected EOF"⟩⟩⟩

/-- A sample client whose transport answers every request with status 401 and
a body that cannot be read. -/
def deniedClient : TodoistClient :=
  ⟨"secret", ⟨fun _ _ => none, fun _ _ => .ok ⟨401, .error "unexpected EOF"⟩⟩⟩

/-! ## Calendar arithmetic, parsing and formatting: lemmas -/

set_option maxRecDepth 100000

theorem yearDay_cycles (a b c e yd : Int) (hb0 : 0 ≤ b) (hb : b ≤ 3) (hc0 : 0 ≤ c) (hc : c ≤ 24)
    (he0 : 0 ≤ e) (he : e ≤ 3) (hyd : 0 ≤ yd)
    (h : yd < 365 ∨ (yd = 365 ∧ e = 3 ∧ (c < 24 ∨ b = 3))) :
    yearDay (146097 * a + 36524 * b + 1461 * c + 365 * e + yd - 719162)
      = (400 * a + 100 * b + 4 * c + e + 1, yd.toNat) := by
  unfold yearDay daysToUnixEpoch
  have h1 : (146097 * a + 36524 * b + 1461 * c + 365 * e + yd - 719162 + 719162) / 146097 = a := by
    omega
  simp only [h1]
  have h2 : (146097 * a + 36524 * b + 1461 * c + 365 * e + yd - 719162 + 719162 - 146097 * a)
      = 36524 * b + 1461 * c + 365 * e + yd := by ring
  simp only [h2]
  have h3 : (36524 * b + 1461 * c + 365 * e + yd) / 36524
      - (36524 * b + 1461 * c + 365 * e + yd) / 36524 / 4 = b := by
    have hq : (36524 * b + 1461 * c + 365 * e + yd) / 36524 = b
        ∨ ((36524 * b + 1461 * c + 365 * e + yd) / 36524 = 4 ∧ b = 3) := by
      rcases h with h | h <;> omega
    rcases hq with hq | ⟨hq, hb3⟩
    · rw [hq]; omega
    · rw [hq, hb3]; rfl
  simp only [h3]
  have h4 : 36524 * b + 1461 * c + 365 * e + yd - 36524 * b = 1461 * c + 365 * e + yd := by ring
  simp only [h4]
  have h5 : (1461 * c + 365 * e + yd) / 1461 = c := by omega
  simp only [h5]
  have h6 : 1461 * c + 365 * e + yd - 1461 * c = 365 * e + yd := by ring
  simp only [h6]
  have h7 : (365 * e + yd) / 365 - (365 * e + yd) / 365 / 4 = e := by
    have hq : (365 * e + yd) / 365 = e ∨ ((365 * e + yd) / 365 = 4 ∧ e = 3) := by
      rcases h with h | h <;> omega
    rcases hq with hq | ⟨hq, he3⟩
    · rw [hq]; omega
    · rw [hq, he3]; rfl
  simp only [h7]
  have h8 : 365 * e + yd - 365 * e = yd := by ring
  simp only [h8]


theorem monthDay_eq (y : Int) (yd : Nat) : monthDay y yd = monthDayOf (isLeap y) yd := rfl

theorem daysIn_eq (m : Nat) (y : Int) : daysIn m y = daysInOf m (isLeap y) := rfl

theorem monthDayOf_table : ∀ leap : Bool, ∀ m : Fin 13, ∀ d : Fin 32,
    (1 ≤ m.val ∧ 1 ≤ d.val ∧ d.val ≤ daysInOf m.val leap) →
    monthDayOf leap (daysBefore (m.val - 1) + (if leap = true ∧ 3 ≤ m.val then 1 else 0) + (d.val - 1))
      = (m.val, d.val) := by
  decide

theorem monthDay_roundtrip (y : Int) (m d : Nat) (hm1 : 1 ≤ m) (hm : m ≤ 12)
    (hd1 : 1 ≤ d) (hd : d ≤ daysIn m y) :
    monthDay y (daysBefore (m - 1) + (if isLeap y = true ∧ 3 ≤ m then 1 else 0) + (d - 1)) = (m, d) := by
  have hd31 : d < 32 := by
    have : ∀ leap : Bool, ∀ m < 13, daysInOf m leap < 32 := by decide
    have := this (isLeap y) m (by omega)
    rw [daysIn_eq] at hd
    omega
  rw [monthDay_eq]
  exact monthDayOf_table (isLeap y) ⟨m, by omega⟩ ⟨d, hd31⟩ ⟨hm1, hd1, by rw [← daysIn_eq]; exact hd⟩


theorem yday_table : ∀ leap : Bool, ∀ m : Fin 13, ∀ d : Fin 32,
    (1 ≤ m.val ∧ 1 ≤ d.val ∧ d.val ≤ daysInOf m.val leap) →
    daysBefore (m.val - 1) + (if leap = true ∧ 3 ≤ m.val then 1 else 0) + (d.val - 1)
      < 365 + (if leap = true then 1 else 0) := by
  decide

theorem isLeap_iff (y : Int) :
    isLeap y = true ↔ (y % 4 = 0 ∧ (y % 100 ≠ 0 ∨ y % 400 = 0)) := by
  simp [isLeap]

theorem daysSinceEpoch_cycles (y : Int) :
    daysSinceEpoch y = 146097 * ((y - 1) / 400) + 36524 * ((y - 1) % 400 / 100)
      + 1461 * ((y - 1) % 100 / 4) + 365 * ((y - 1) % 4) - 719162 := by
  unfold daysSinceEpoch daysToUnixEpoch
  simp only []
  omega

theorem yearDay_of_year (y : Int) (yd : Nat)
    (h : yd < 365 + (if isLeap y = true then 1 else 0)) :
    yearDay (daysSinceEpoch y + (yd : Int)) = (y, yd) := by
  have hleap := isLeap_iff y
  have hrw : daysSinceEpoch y + (yd : Int)
      = 146097 * ((y - 1) / 400) + 36524 * ((y - 1) % 400 / 100) + 1461 * ((y - 1) % 100 / 4)
        + 365 * ((y - 1) % 4) + (yd : Int) - 719162 := by
    rw [daysSinceEpoch_cycles]; ring
  rw [hrw, yearDay_cycles _ _ _ _ _ (by omega) (by omega) (by omega) (by omega) (by omega)
    (by omega) (by omega)]
  · ext
    · simp only []; omega
    · simp
  · by_cases hl : isLeap y = true
    · simp only [hl, if_true] at h
      have := hleap.mp hl
      omega
    · simp [hl] at h
      left; omega

theorem yearDay_daysFromCivil (y : Int) (m d : Nat) (hm1 : 1 ≤ m) (hm : m ≤ 12)
    (hd1 : 1 ≤ d) (hd : d ≤ daysIn m y) :
    yearDay (daysFromCivil y m d)
      = (y, daysBefore (m - 1) + (if isLeap y = true ∧ 3 ≤ m then 1 else 0) + (d - 1)) := by
  have hd31 : d < 32 := by
    have : ∀ leap : Bool, ∀ m : Fin 13, daysInOf m.val leap < 32 := by decide
    have := this (isLeap y) ⟨m, by omega⟩
    rw [daysIn_eq] at hd
    simp only at this
    omega
  have hy := yday_table (isLeap y) ⟨m, by omega⟩ ⟨d, hd31⟩ ⟨hm1, hd1, by rw [← daysIn_eq]; exact hd⟩
  simp only at hy
  rw [← yearDay_of_year y _ hy]
  congr 1
  unfold daysFromCivil
  have : ((d - 1 : Nat) : Int) = (d : Int) - 1 := by omega
  push_cast
  rw [this]
  split_ifs <;> simp <;> ring

theorem civil_of_abs (t : Time) (y : Int) (m d h mi s : Nat) (hm1 : 1 ≤ m) (hm : m ≤ 12)
    (hd1 : 1 ≤ d) (hd : d ≤ daysIn m y) (hh : h < 24) (hmi : mi < 60) (hs : s < 60)
    (habs : t.abs = daysFromCivil y m d * 86400 + (h : Int) * 3600 + (mi : Int) * 60 + (s : Int)) :
    t.civil = ⟨y, m, d, h, mi, s⟩ := by
  unfold Time.civil
  have hdiv : t.abs / 86400 = daysFromCivil y m d := by omega
  have hmod : (t.abs % 86400).toNat = h * 3600 + mi * 60 + s := by omega
  simp only [hdiv, hmod, yearDay_daysFromCivil y m d hm1 hm hd1 hd, monthDay_roundtrip y m d hm1 hm hd1 hd]
  congr 1 <;> omega

theorem Date_UTC_sec (y : Int) (m d h mi s ns : Nat) (hm1 : 1 ≤ m) (hm : m ≤ 12)
    (hh : h < 24) (hmi : mi < 60) (hs : s < 60) :
    Date y m d h mi s ns UTC
      = ⟨daysFromCivil y m d * 86400 + (h : Int) * 3600 + (mi : Int) * 60 + (s : Int), ns, UTC⟩ := by
  unfold Date
  have e1 : ((m : Int) - 1) / 12 = 0 := by omega
  have e2 : (((m : Int) - 1) % 12).toNat + 1 = m := by omega
  have e3 : (s : Int) / 60 = 0 := by omega
  have e4 : (s : Int) % 60 = s := by omega
  have e5 : (mi : Int) / 60 = 0 := by omega
  have e6 : (mi : Int) % 60 = mi := by omega
  have e7 : (h : Int) / 24 = 0 := by omega
  have e8 : (h : Int) % 24 = h := by omega
  simp only [e1, e2, e3, e4, e5, e6, e7, e8, UTC, add_zero, ne_eq, not_true_eq_false, if_false]

theorem digitVal_le (c : Char) (h : isDigit c = true) : digitVal c ≤ 9 := by
  unfold isDigit at h
  simp only [Bool.and_eq_true, decide_eq_true_eq] at h
  have h2 : c.toNat ≤ ('9' : Char).toNat := h.2
  unfold digitVal
  have : ('9' : Char).toNat = 57 := rfl
  omega

theorem check_eq_some (b : Bool) (u : Unit) : check b = some u ↔ b = true := by
  unfold check; cases b <;> simp

theorem parseYear_le (s : List Char) (r : Nat × List Char) (h : parseYear s = some r) :
    r.1 ≤ 9999 := by
  unfold parseYear at h
  split at h
  · rename_i y1 y2 y3 y4 rest
    split at h
    · rename_i hd
      simp only [Bool.and_eq_true] at hd
      obtain ⟨⟨⟨h1, h2⟩, h3⟩, h4⟩ := hd
      have := digitVal_le _ h1
      have := digitVal_le _ h2
      have := digitVal_le _ h3
      have := digitVal_le _ h4
      simp only [Option.some.injEq] at h
      subst h
      simp only [digitsVal, List.foldl]
      omega
    · simp at h
  · simp at h

theorem parseFields_valid (s : List Char) (p : Parsed) (h : parseFields s = some p) :
    p.year ≤ 9999 ∧ 1 ≤ p.month ∧ p.month ≤ 12 ∧ 1 ≤ p.day ∧ p.day ≤ daysIn p.month p.year
      ∧ p.hour < 24 ∧ p.min < 60 ∧ p.sec < 60 := by
  unfold parseFields at h
  simp only [Option.bind_eq_some, check_eq_some, decide_eq_true_eq, Option.some.injEq] at h
  obtain ⟨d, hd, s1, -, c, hc, z, -, -, -, -, hday, rfl⟩ := h
  unfold parseDate at hd
  simp only [Option.bind_eq_some, check_eq_some, decide_eq_true_eq, Option.some.injEq] at hd
  obtain ⟨y, hy, s2, -, m, -, -, hm, s3, -, dd, -, rfl⟩ := hd
  unfold parseClock at hc
  simp only [Option.bind_eq_some, check_eq_some, decide_eq_true_eq, Option.some.injEq] at hc
  obtain ⟨hh, -, -, hh24, s4, -, mi, -, -, hmi, s5, -, se, -, -, hse, rfl⟩ := hc
  have := parseYear_le _ _ hy
  simp only at hday ⊢
  refine ⟨this, by omega, by omega, hday.1, ?_, hh24, hmi, hse⟩
  exact hday.2

theorem toTime_civil (p : Parsed) (loc : Location) (hm1 : 1 ≤ p.month) (hm : p.month ≤ 12)
    (hd1 : 1 ≤ p.day) (hd : p.day ≤ daysIn p.month p.year) (hh : p.hour < 24)
    (hmi : p.min < 60) (hs : p.sec < 60) :
    (p.toTime loc).civil = ⟨p.year, p.month, p.day, p.hour, p.min, p.sec⟩ := by
  apply civil_of_abs _ _ _ _ _ _ _ hm1 hm hd1 hd hh hmi hs
  unfold Parsed.toTime
  have hD := Date_UTC_sec (p.year : Int) p.month p.day p.hour p.min p.sec p.nsec hm1 hm hh hmi hs
  cases hz : p.zone with
  | none =>
    simp only [hD]
    simp only [Time.abs, UTC, add_zero]
  | some off =>
    simp only [hD]
    split
    · rename_i hloc
      simp only [Time.abs, hloc]
      ring
    · simp only [Time.abs, FixedZone]
      ring

theorem Parse_civil (loc : Location) (value : String) (t : Time) (h : Parse loc value = some t) :
    ∃ p : Parsed, parseFields value.data = some p ∧ t = p.toTime loc
      ∧ t.civil = ⟨p.year, p.month, p.day, p.hour, p.min, p.sec⟩ := by
  unfold Parse at h
  simp only [Option.map_eq_some'] at h
  obtain ⟨p, hp, rfl⟩ := h
  obtain ⟨-, h1, h2, h3, h4, h5, h6, h7⟩ := parseFields_valid _ _ hp
  exact ⟨p, hp, rfl, toTime_civil p loc h1 h2 h3 h4 h5 h6 h7⟩



theorem isDigit_digitChar (k : Nat) : isDigit (digitChar k) = true := by
  unfold digitChar
  split <;> decide

theorem natDigits_small (fuel n : Nat) (h : n < 10) : natDigits (fuel + 1) n = [digitChar n] := by
  simp [natDigits, h]

theorem natDigits_step (fuel n : Nat) (h : 10 ≤ n) :
    natDigits (fuel + 1) n = natDigits fuel (n / 10) ++ [digitChar (n % 10)] := by
  simp [natDigits, Nat.not_lt.mpr h]

theorem appendInt_two (n : Nat) (h : n < 100) :
    appendInt (n : Int) 2 = [digitChar (n / 10), digitChar (n % 10)] := by
  unfold appendInt natString
  have hneg : ¬ ((n : Int) < 0) := by omega
  simp only [hneg, if_false, Int.natAbs_ofNat, List.nil_append]
  by_cases h10 : n < 10
  · rw [natDigits_small _ _ h10]
    have e1 : n / 10 = 0 := by omega
    have e2 : n % 10 = n := by omega
    simp [e1, e2, digitChar]
  · obtain ⟨k, rfl⟩ : ∃ k, n = k + 1 := ⟨n - 1, by omega⟩
    rw [natDigits_step _ _ (by omega), natDigits_small k _ (by omega)]
    simp

theorem appendInt_four (n : Nat) (h : n ≤ 9999) :
    appendInt (n : Int) 4
      = [digitChar (n / 1000), digitChar (n / 100 % 10), digitChar (n / 10 % 10), digitChar (n % 10)] := by
  unfold appendInt natString
  have hneg : ¬ ((n : Int) < 0) := by omega
  simp only [hneg, if_false, Int.natAbs_ofNat, List.nil_append]
  by_cases h10 : n < 10
  · rw [natDigits_small _ _ h10]
    have e1 : n / 1000 = 0 := by omega
    have e2 : n / 100 % 10 = 0 := by omega
    have e3 : n / 10 % 10 = 0 := by omega
    have e4 : n % 10 = n := by omega
    simp [e1, e2, e3, e4, digitChar, List.replicate]
  · by_cases h100 : n < 100
    · obtain ⟨k, rfl⟩ : ∃ k, n = k + 1 := ⟨n - 1, by omega⟩
      rw [natDigits_step _ _ (by omega), natDigits_small k _ (by omega)]
      have e1 : (k + 1) / 1000 = 0 := by omega
      have e2 : (k + 1) / 100 % 10 = 0 := by omega
      have e3 : (k + 1) / 10 % 10 = (k + 1) / 10 := by omega
      simp [e1, e2, e3, digitChar, List.replicate]
    · by_cases h1000 : n < 1000
      · obtain ⟨k, rfl⟩ : ∃ k, n = k + 2 := ⟨n - 2, by omega⟩
        rw [show k + 2 + 1 = (k + 2) + 1 from rfl, natDigits_step _ _ (by omega),
          show k + 2 = (k + 1) + 1 from rfl, natDigits_step _ _ (by omega),
          natDigits_small k _ (by omega)]
        have e1 : (k + 1 + 1) / 1000 = 0 := by omega
        have e2 : (k + 1 + 1) / 100 % 10 = (k + 1 + 1) / 10 / 10 := by omega
        simp [e1, e2, digitChar, List.replicate]
      · obtain ⟨k, rfl⟩ : ∃ k, n = k + 3 := ⟨n - 3, by omega⟩
        rw [show k + 3 + 1 = (k + 3) + 1 from rfl, natDigits_step _ _ (by omega),
          show k + 3 = (k + 2) + 1 from rfl, natDigits_step _ _ (by omega),
          show k + 2 = (k + 1) + 1 from rfl, natDigits_step _ _ (by omega),
          natDigits_small k _ (by omega)]
        have e1 : (k + 1 + 1 + 1) / 1000 = (k + 1 + 1 + 1) / 10 / 10 / 10 := by omega
        have e2 : (k + 1 + 1 + 1) / 100 % 10 = (k + 1 + 1 + 1) / 10 / 10 % 10 := by omega
        simp [e1, e2]

theorem formatLayout_display (c : Civil) :
    formatLayout c "2006-01-02 15:04:05".data
      = appendInt c.year 4 ++ '-' :: (appendInt c.month 2 ++ '-' :: (appendInt c.day 2 ++ ' ' ::
        (appendInt c.hour 2 ++ ':' :: (appendInt c.min 2 ++ ':' :: (appendInt c.sec 2 ++ []))))) := by
  rfl

theorem isTimestamp_format (t : Time) (hy0 : 0 ≤ t.civil.year) (hy : t.civil.year ≤ 9999)
    (hm : t.civil.month < 100) (hd : t.civil.day < 100) (hh : t.civil.hour < 100)
    (hmi : t.civil.min < 100) (hs : t.civil.sec < 100) :
    isTimestamp (t.Format "2006-01-02 15:04:05") = true := by
  unfold Time.Format
  rw [formatLayout_display]
  obtain ⟨n, hn⟩ : ∃ n : Nat, t.civil.year = n := ⟨t.civil.year.toNat, by omega⟩
  rw [hn, appendInt_four n (by omega), appendInt_two _ hm, appendInt_two _ hd, appendInt_two _ hh,
    appendInt_two _ hmi, appendInt_two _ hs]
  simp [isTimestamp, isDigit_digitChar]

/-! ## The model of package time on sample inputs -/

theorem Format_samples :
    Time.zero.Format "2006-01-02 15:04:05" = "0001-01-01 00:00:00"
      ∧ (Time.mk 1718013600 0 (FixedZone 7200)).Format "2006-01-02T15:04:05Z"
        = "2024-06-10T12:00:00Z"
      ∧ (Time.mk 1709164800 5 UTC).Format "2006-01-02T15:04:05Z" = "2024-02-29T00:00:00Z"
      ∧ (Time.mk (-1) 5 UTC).Format "2006-01-02T15:04:05Z" = "1969-12-31T23:59:59Z"
      ∧ ((Time.mk 1709683200 0 UTC).AddDate 0 0 (-7)).Format "2006-01-02T15:04:05Z"
        = "2024-02-28T00:00:00Z" := by
  refine ⟨by decide, by decide, by decide, by decide, by decide⟩

theorem Parse_samples :
    ((Parse UTC "2024-01-15T10:30:00Z").map fun t => t.sec) = some 1705314600
      ∧ ((Parse UTC "2024-01-15T10:30:00+02:00").map fun t => t.sec) = some 1705307400
      ∧ ((Parse UTC "2024-01-15T10:30:00.123456-02:00").map fun t => (t.sec, t.nsec))
        = some (1705321800, 123456000)
      ∧ parseFields "2024-02-30T10:30:00Z".data = none
      ∧ parseFields "2024-01-15T10:30:00".data = none
      ∧ parseFields "2024-01-15T10:30:00Zx".data = none
      ∧ parseFields "2024-01-15 10:30:00Z".data = none
      ∧ parseFields "".data = none := by
  refine ⟨by decide, by decide, by decide, by decide, by decide, by decide, by decide, by decide⟩

/-! ## formatTask -/

theorem formatTask_eq (loc : Location) (prev cur : Task) :
    formatTask loc prev cur
      = (if prev.ParentID ≠ none ∧ cur.ParentID = none then "\n" else "") ++ taskLine loc cur
        ++ (if cur.Description ≠ "" then
            "\n" ++ String.mk (List.replicate (bullet cur).length ' ') ++ cur.Description ++ "\n"
          else "") := by
  unfold formatTask
  split_ifs <;> simp [String.append_assoc]

theorem bullet_eq (task : Task) :
    bullet task = if task.ParentID = none then "* " else "  - " := by
  unfold bullet
  split_ifs <;> simp_all

theorem bullet_length (task : Task) :
    (bullet task).length = if task.ParentID = none then 2 else 4 := by
  rw [bullet_eq]
  split_ifs <;> rfl

theorem taskLine_head (loc : Location) (task : Task) :
    (taskLine loc task).data.head? ≠ some '\n' := by
  unfold taskLine
  rw [bullet_eq]
  split_ifs <;> simp

theorem taskLine_last (loc : Location) (task : Task) :
    ∃ l : List Char, (taskLine loc task).data = l ++ [')'] := by
  unfold taskLine
  refine ⟨(bullet task ++ task.Content ++ " (completed: "
    ++ (completedAt loc task).Format "2006-01-02 15:04:05").data, ?_⟩
  rw [String.data_append]

theorem formatTask_start (loc : Location) (prev cur : Task)
    (h : ¬ (prev.ParentID ≠ none ∧ cur.ParentID = none)) :
    ∃ rest : String, formatTask loc prev cur
      = (if cur.ParentID = none then "* " else "  - ") ++ rest := by
  rw [formatTask_eq, if_neg h, taskLine, bullet_eq]
  exact ⟨_, by simp only [String.empty_append, String.append_assoc]; rfl⟩

theorem formatTask_blocks (loc : Location) (prev cur : Task) :
    formatTask loc prev cur
      = (if prev.ParentID ≠ none ∧ cur.ParentID = none then "\n" else "") ++ taskLine loc cur
        ++ (if cur.Description = "" then ""
            else "\n" ++ String.mk (List.replicate (if cur.ParentID = none then 2 else 4) ' ')
              ++ cur.Description ++ "\n") := by
  rw [formatTask_eq, bullet_length]
  by_cases h : cur.Description = "" <;> simp [h]

/-- Claim C1: the block returned by `formatTask` begins with a newline exactly
when the previous task has a parent and the current one has none; the block is
then one newline followed by the block the same task gets after a top-level
previous task, and that block, like the block of every other transition, begins
directly with the marker. -/
theorem formatTask_group_boundary (loc : Location) (prev cur : Task) :
    ((formatTask loc prev cur).data.head? = some '\n'
        ↔ (prev.ParentID ≠ none ∧ cur.ParentID = none))
      ∧ (∀ top : Task, top.ParentID = none →
          formatTask loc prev cur
            = (if prev.ParentID ≠ none ∧ cur.ParentID = none then "\n" else "")
              ++ formatTask loc top cur)
      ∧ (∀ top : Task, top.ParentID = none →
          ∃ rest : String, formatTask loc top cur
            = (if cur.ParentID = none then "* " else "  - ") ++ rest)
      ∧ (¬ (prev.ParentID ≠ none ∧ cur.ParentID = none) →
          ∃ rest : String, formatTask loc prev cur
            = (if cur.ParentID = none then "* " else "  - ") ++ rest) := by
  refine ⟨?_, ?_, ?_, formatTask_start loc prev cur⟩
  · rw [formatTask_eq]
    by_cases h : prev.ParentID ≠ none ∧ cur.ParentID = none
    · simp [h]
    · have := taskLine_head loc cur
      simp only [h, if_false, String.empty_append, String.data_append, iff_false]
      cases hd : (taskLine loc cur).data with
      | nil => simp [taskLine, bullet_eq] at hd
      | cons c l => rw [hd] at this; simpa using this
  · intro top htop
    rw [formatTask_eq, formatTask_eq loc top cur]
    simp [htop, String.append_assoc]
  · intro top htop
    exact formatTask_start loc top cur (by simp [htop])

theorem Parse_eq_none (loc : Location) (value : String) :
    Parse loc value = none ↔ parseFields value.data = none := by
  unfold Parse
  simp

theorem completedAt_civil_bounds (loc : Location) (task : Task) :
    0 ≤ (completedAt loc task).civil.year ∧ (completedAt loc task).civil.year ≤ 9999
      ∧ (completedAt loc task).civil.month < 100 ∧ (completedAt loc task).civil.day < 100
      ∧ (completedAt loc task).civil.hour < 100 ∧ (completedAt loc task).civil.min < 100
      ∧ (completedAt loc task).civil.sec < 100 := by
  unfold completedAt
  cases h : Parse loc task.CompletedAt with
  | none =>
    have : Time.zero.civil = ⟨1, 1, 1, 0, 0, 0⟩ := by decide
    simp only [this]
    decide
  | some t =>
    obtain ⟨p, hp, -, hc⟩ := Parse_civil loc _ t h
    obtain ⟨h0, h1, h2, h3, h4, h5, h6, h7⟩ := parseFields_valid _ _ hp
    have hd31 : p.day < 32 := by
      have : ∀ leap : Bool, ∀ m : Fin 13, daysInOf m.val leap < 32 := by decide
      have := this (isLeap p.year) ⟨p.month, by omega⟩
      rw [daysIn_eq] at h4
      simp only at this
      omega
    simp only [hc]
    omega

theorem timestamp_length (s : String) (h : isTimestamp s = true) : s.length = 19 := by
  unfold isTimestamp at h
  split at h
  · rename_i heq
    simp [String.length, heq]
  · simp at h

/-- Claim C2: right after the optional leading newline the block holds the
line marker, content, ` (completed: `, timestamp, `)`, where the marker is `* `
for a task without a parent and the indented `  - ` for a task with one, and the
timestamp has the nineteen-character shape `YYYY-MM-DD HH:MM:SS`. -/
theorem formatTask_task_line (loc : Location) (prev cur : Task) :
    (∃ suffix : String,
        formatTask loc prev cur
          = (if prev.ParentID ≠ none ∧ cur.ParentID = none then "\n" else "")
            ++ ((if cur.ParentID = none then "* " else "  - ") ++ cur.Content ++ " (completed: "
              ++ (completedAt loc cur).Format "2006-01-02 15:04:05" ++ ")")
            ++ suffix)
      ∧ isTimestamp ((completedAt loc cur).Format "2006-01-02 15:04:05") = true
      ∧ ((completedAt loc cur).Format "2006-01-02 15:04:05").length = 19 := by
  obtain ⟨h0, h1, h2, h3, h4, h5, h6⟩ := completedAt_civil_bounds loc cur
  have hts := isTimestamp_format (completedAt loc cur) h0 h1 h2 h3 h4 h5 h6
  refine ⟨⟨if cur.Description ≠ "" then
      "\n" ++ String.mk (List.replicate (bullet cur).length ' ') ++ cur.Description ++ "\n"
    else "", ?_⟩, hts, timestamp_length _ hts⟩
  rw [formatTask_eq, taskLine, bullet_eq]

/-- Claim C3: with a non-empty description the block ends with the task line,
a newline, the description padded by as many blanks as the marker is long (two
for a top-level task, four for a subtask) and a final newline; with an empty
description the block ends with the `)` of the task line and has no description
line and no trailing newline. -/
theorem formatTask_description (loc : Location) (prev cur : Task) :
    formatTask loc prev cur
        = (if prev.ParentID ≠ none ∧ cur.ParentID = none then "\n" else "") ++ taskLine loc cur
          ++ (if cur.Description = "" then ""
              else "\n" ++ String.mk (List.replicate (if cur.ParentID = none then 2 else 4) ' ')
                ++ cur.Description ++ "\n")
      ∧ (bullet cur).length = (if cur.ParentID = none then 2 else 4)
      ∧ (∃ l : List Char, (taskLine loc cur).data = l ++ [')'])
      ∧ (cur.Description = "" → (formatTask loc prev cur).data.getLast? = some ')')
      ∧ (cur.Description ≠ "" → (formatTask loc prev cur).data.getLast? = some '\n') := by
  refine ⟨formatTask_blocks loc prev cur, bullet_length cur, taskLine_last loc cur, ?_, ?_⟩
  · intro h
    obtain ⟨l, hl⟩ := taskLine_last loc cur
    rw [formatTask_eq]
    simp [h, String.data_append, hl]
  · intro h
    rw [formatTask_eq]
    simp only [h, ne_eq, not_false_eq_true, if_true, ← String.append_assoc]
    rw [String.data_append]
    exact List.getLast?_concat _

/-- Claim C8: `formatTask` is a total function, and for a task whose
`CompletedAt` does not parse (the empty string is such a value) the block is
built by the same rules with the zero time `0001-01-01 00:00:00` displayed. -/
theorem formatTask_unparsed (loc : Location) (prev cur : Task)
    (h : Parse loc cur.CompletedAt = none) :
    formatTask loc prev cur
        = (if prev.ParentID ≠ none ∧ cur.ParentID = none then "\n" else "")
          ++ ((if cur.ParentID = none then "* " else "  - ") ++ cur.Content
            ++ " (completed: 0001-01-01 00:00:00)")
          ++ (if cur.Description = "" then ""
              else "\n" ++ String.mk (List.replicate (if cur.ParentID = none then 2 else 4) ' ')
                ++ cur.Description ++ "\n")
      ∧ Parse loc "" = none := by
  refine ⟨?_, (Parse_eq_none loc "").mpr (by decide)⟩
  have hz : Time.zero.Format "2006-01-02 15:04:05" = "0001-01-01 00:00:00" := by decide
  rw [formatTask_blocks loc prev cur, taskLine, completedAt, h, bullet_eq]
  simp only [hz]
  simp [String.append_assoc]

theorem formatTask_unparsed_witness :
    Parse UTC "yesterday" = none
      ∧ formatTask UTC sampleS ⟨"4", "b", "note", "yesterday", none⟩
        = "\n* b (completed: 0001-01-01 00:00:00)\n  note\n" := by
  refine ⟨(Parse_eq_none UTC "yesterday").mpr (by decide), ?_⟩
  rw [(formatTask_unparsed UTC sampleS ⟨"4", "b", "note", "yesterday", none⟩
    ((Parse_eq_none UTC "yesterday").mpr (by decide))).1]
  decide

theorem completedAt_civil_indep (loc loc' : Location) (task : Task) :
    (completedAt loc task).civil = (completedAt loc' task).civil := by
  unfold completedAt
  cases hp : parseFields task.CompletedAt.data with
  | none =>
    rw [(Parse_eq_none loc _).mpr hp, (Parse_eq_none loc' _).mpr hp]
  | some p =>
    obtain ⟨-, h1, h2, h3, h4, h5, h6, h7⟩ := parseFields_valid _ _ hp
    have e1 : Parse loc task.CompletedAt = some (p.toTime loc) := by simp [Parse, hp]
    have e2 : Parse loc' task.CompletedAt = some (p.toTime loc') := by simp [Parse, hp]
    rw [e1, e2]
    simp only [toTime_civil p _ h1 h2 h3 h4 h5 h6 h7]

theorem formatTask_loc_indep (loc loc' : Location) (prev cur : Task) :
    formatTask loc prev cur = formatTask loc' prev cur := by
  have : taskLine loc cur = taskLine loc' cur := by
    unfold taskLine Time.Format
    rw [completedAt_civil_indep loc loc' cur]
  rw [formatTask_eq, formatTask_eq, this]

/-- Claim C7 (the code at the failing input): the block does not depend on the
local zone of the process; in a process one hour east of UTC the task completed
at `2024-01-15T10:30:00Z` is shown with `10:30:00`, the clock written in the wire
timestamp, while that instant converted to the local zone reads `11:30:00`. -/
theorem formatTask_keeps_wire_clock :
    (∀ (loc loc' : Location) (prev cur : Task), formatTask loc prev cur = formatTask loc' prev cur)
      ∧ formatTask (FixedZone 3600) Task.zero sampleA = "* a (completed: 2024-01-15 10:30:00)"
      ∧ ((Parse (FixedZone 3600) sampleA.CompletedAt).map fun t =>
          (t.In (FixedZone 3600)).Format "2006-01-02 15:04:05") = some "2024-01-15 11:30:00" := by
  refine ⟨formatTask_loc_indep, by decide, by decide⟩

/-! ## GetCompletedTasks -/

/-- Claim C9 (the code at the failing input): in a process two hours east of
UTC whose clock stands at 2024-06-10 10:00:00 UTC the parameters are
`project_id`, `since` and `until`, and `since` and `until` carry the local wall
clock, `12:00:00`, followed by the letter `Z`; the UTC clock of the same
instants reads `10:00:00`. -/
theorem completedTasksParams_local_clock :
    completedTasksParams "42" ((sampleRuntime.Now 0).AddDate 0 0 (-7)) (sampleRuntime.Now 1)
        = [("project_id", "42"), ("since", "2024-06-03T12:00:00Z"),
            ("until", "2024-06-10T12:00:00Z")]
      ∧ ((sampleRuntime.Now 0).AddDate 0 0 (-7)).toUTC.Format "2006-01-02T15:04:05Z"
        = "2024-06-03T10:00:00Z"
      ∧ (sampleRuntime.Now 1).toUTC.Format "2006-01-02T15:04:05Z" = "2024-06-10T10:00:00Z" := by
  refine ⟨by decide, by decide, by decide⟩

/-! ## The report loop of main -/

theorem takeWhile_replicate_append (p : Char → Bool) (a c : Char) (k : Nat) (r : List Char)
    (ha : p a = true) (hc : p c = false) :
    (List.replicate k a ++ c :: r).takeWhile p = List.replicate k a := by
  induction k with
  | zero => simp [List.takeWhile_cons, hc]
  | succ k ih => simp [List.replicate_succ, List.takeWhile_cons, ha, ih]

theorem trailingNewlines_append (l : List Char) (c : Char) (hc : c ≠ '\n') (k : Nat) :
    trailingNewlines (l ++ c :: List.replicate k '\n') = k := by
  unfold trailingNewlines
  have : (l ++ c :: List.replicate k '\n').reverse = List.replicate k '\n' ++ c :: l.reverse := by
    simp
  rw [this, takeWhile_replicate_append _ _ _ _ _ (by simp) (by simpa using hc)]
  simp

theorem blankLinesBefore_append (l : List Char) (c : Char) (hc : c ≠ '\n') (k : Nat) :
    blankLinesBefore ⟨l ++ c :: List.replicate k '\n'⟩ = k - 1 := by
  unfold blankLinesBefore
  have hall : (l ++ c :: List.replicate k '\n').all (· == '\n') = false := by
    simp [List.all_eq_false, hc]
  simp only [hall, trailingNewlines_append l c hc k]
  simp

theorem printTasks_three (loc : Location) (A S B : Task) (hA : A.ParentID = none)
    (hS : S.ParentID ≠ none) (hB : B.ParentID = none) (hAd : A.Description = "")
    (hSd : S.Description = "") :
    printTasks loc Task.zero [A, S, B]
      = taskLine loc A ++ "\n" ++ taskLine loc S ++ "\n" ++ "\n" ++ formatTask loc Task.zero B
        ++ "\n" := by
  simp only [printTasks]
  rw [formatTask_eq loc Task.zero A, formatTask_eq loc A S, formatTask_eq loc S B,
    formatTask_eq loc Task.zero B]
  apply String.ext
  simp [hA, hS, hB, hAd, hSd, Task.zero, String.data_append]

theorem reportHeader_data (oneWeekAgo now : Time) :
    ∃ l : List Char, (reportHeader oneWeekAgo now 3).data = l ++ '3' :: List.replicate 2 '\n' := by
  unfold reportHeader
  refine ⟨("\n\u00f0\u0178\u201c\u2039 Completed Tasks in #Canopy (" ++ oneWeekAgo.Format "2006-01-02"
    ++ " to " ++ now.Format "2006-01-02" ++ ")\n"
    ++ String.mk (List.replicate 56 '=') ++ "\n" ++ "Total completed: ").data, ?_⟩
  have h3 : natString 3 = ['3'] := by decide
  rw [String.data_append, String.data_append, h3]
  simp [List.replicate]

/-! ## FindProjectByName -/

theorem EqualFold_iff (f : Char → Char) (s t : String) :
    EqualFold f s t = true ↔ s.data.map f = t.data.map f := by
  unfold EqualFold
  simp

theorem findLoop_snd (rt : Runtime) (name : String) (ps : List Project) :
    (findLoop rt name ps).2 = ps.find? (fun p => EqualFold rt.foldKey p.Name name) := by
  induction ps with
  | nil => rfl
  | cons p rest ih =>
    unfold findLoop
    by_cases h : EqualFold rt.foldKey p.Name name = true
    · simp [h]
    · simp [h, ih]

theorem findLoop_fst (rt : Runtime) (name : String) (ps : List Project) (p : Project)
    (h : (findLoop rt name ps).2 = some p) :
    (findLoop rt name ps).1 = "Found project: " ++ p.Name ++ " (ID: " ++ p.ID ++ ")\n" := by
  induction ps with
  | nil => simp [findLoop] at h
  | cons q rest ih =>
    unfold findLoop at h ⊢
    by_cases hq : EqualFold rt.foldKey q.Name name = true
    · simp only [hq, if_true, Option.some.injEq] at h ⊢
      rw [h]
    · simp only [hq] at h ⊢
      exact ih h

/-- Claim C5: when the service returns a project list, `FindProjectByName`
returns without error the first project of the list whose name equals the query
under case folding; the result is `(nil, nil)` exactly when no name matches; it
is the same for every query equal to the given one under case folding, and
changing stored names within their case-folding class changes the found project
only by that renaming. -/
theorem FindProjectByName_first_match (rt : Runtime) (c : TodoistClient) (n : Nat)
    (name : String) (projects : List Project) (h : c.GetProjects rt n = .ok projects) :
    (c.FindProjectByName rt n name).2
        = .ok (projects.find? fun p => EqualFold rt.foldKey p.Name name)
      ∧ ((c.FindProjectByName rt n name).2 = .ok none
          ↔ ∀ p ∈ projects, EqualFold rt.foldKey p.Name name = false)
      ∧ (∀ other : String, EqualFold rt.foldKey name other = true →
          (c.FindProjectByName rt n other).2 = (c.FindProjectByName rt n name).2)
      ∧ (∀ rename : Project → Project,
          (∀ p, EqualFold rt.foldKey (rename p).Name p.Name = true) →
          (findLoop rt name (projects.map rename)).2
            = ((findLoop rt name projects).2).map rename) := by
  have hres : ∀ q : String, (c.FindProjectByName rt n q).2
      = .ok (projects.find? fun p => EqualFold rt.foldKey p.Name q) := by
    intro q
    unfold TodoistClient.FindProjectByName
    rw [h]
    simp only [findLoop_snd]
  refine ⟨hres name, ?_, ?_, ?_⟩
  · rw [hres]
    simp [List.find?_eq_none]
  · intro other ho
    rw [hres, hres]
    have ho := (EqualFold_iff _ _ _).mp ho
    have : (fun p : Project => EqualFold rt.foldKey p.Name other)
        = fun p => EqualFold rt.foldKey p.Name name := by
      funext p
      unfold EqualFold
      rw [ho]
    rw [this]
  · intro rename hr
    rw [findLoop_snd, findLoop_snd]
    have hfun : ∀ p : Project, EqualFold rt.foldKey (rename p).Name name
        = EqualFold rt.foldKey p.Name name := by
      intro p
      have := (EqualFold_iff _ _ _).mp (hr p)
      unfold EqualFold
      rw [this]
    clear h hres
    induction projects with
    | nil => rfl
    | cons p rest ih =>
      simp only [List.map_cons, List.find?_cons, hfun]
      cases EqualFold rt.foldKey p.Name name with
      | true => rfl
      | false => exact ih

theorem FindProjectByName_first_match_witness :
    sampleClient.GetProjects sampleRuntime 0 = .ok [⟨"7", "Inbox"⟩, ⟨"42", "Canopy"⟩]
      ∧ (sampleClient.FindProjectByName sampleRuntime 0 "cAnOpY").2 = .ok (some ⟨"42", "Canopy"⟩)
      ∧ (sampleClient.FindProjectByName sampleRuntime 0 "Garden").2 = .ok none := by
  have h : sampleClient.GetProjects sampleRuntime 0 = .ok [⟨"7", "Inbox"⟩, ⟨"42", "Canopy"⟩] := by
    decide
  refine ⟨h, ?_, ?_⟩
  · rw [(FindProjectByName_first_match sampleRuntime sampleClient 0 "cAnOpY" _ h).1]
    decide
  · rw [(FindProjectByName_first_match sampleRuntime sampleClient 0 "Garden" _ h).1]
    decide

/-! ## request -/

/-- Claim C6 fails as stated: a response with status 200 whose body cannot be
read to its end makes `request` return the error `reading response: unexpected
EOF` and no body bytes. -/
theorem request_body_read_failure :
    truncatedClient.client.Do 0 (truncatedClient.buildRequest "GET" "projects" [])
        = .ok ⟨200, .error "unexpected EOF"⟩
      ∧ truncatedClient.request 0 "GET" "projects" []
        = .error "reading response: unexpected EOF"
      ∧ (∀ body : Bytes, truncatedClient.request 0 "GET" "projects" [] ≠ .ok body) := by
  refine ⟨by decide, by decide, ?_⟩
  intro body h
  have h2 : truncatedClient.request 0 "GET" "projects" []
      = .error "reading response: unexpected EOF" := by decide
  rw [h2] at h
  exact Except.noConfusion h

theorem natString_401 : String.mk (natString 401) = "401" := by decide

/-- Claim C6 as amended: after a round trip that returned a response,
`request` fails with the error `API returned status code N` whenever the status
`N` differs from 200, whatever the body is (for 401 the message ends in 401),
and `GetProjects` and `GetCompletedTasks` return that same error whatever the
decoder is; with status 200 `request` returns exactly the bytes of the body when
the body is read to its end, and the error `reading response: ...` when reading
the body fails. -/
theorem request_status_contract (c : TodoistClient) (n : Nat) (method endpoint : String)
    (params : List (String × String)) (resp : Response)
    (hnew : c.client.NewRequest method (apiBaseURL ++ "/" ++ endpoint) = none)
    (hdo : c.client.Do n (c.buildRequest method endpoint params) = .ok resp) :
    (resp.StatusCode ≠ 200 →
        c.request n method endpoint params
          = .error ("API returned status code " ++ String.mk (natString resp.StatusCode)))
      ∧ (resp.StatusCode = 401 →
          c.request n method endpoint params = .error "API returned status code 401")
      ∧ (∀ body : Bytes, resp.StatusCode = 200 → resp.Body = .ok body →
          c.request n method endpoint params = .ok body)
      ∧ (∀ rt : Runtime, method = "GET" → endpoint = "projects" → params = [] →
          resp.StatusCode ≠ 200 →
          c.GetProjects rt n
            = .error ("API returned status code " ++ String.mk (natString resp.StatusCode)))
      ∧ (∀ (rt : Runtime) (k : Nat) (projectID : String) (since : Time), method = "GET" →
          endpoint = "tasks/completed/by_completion_date" →
          params = completedTasksParams projectID since (rt.Now k) →
          resp.StatusCode ≠ 200 →
          c.GetCompletedTasks rt n k projectID since
            = .error ("API returned status code " ++ String.mk (natString resp.StatusCode)))
      ∧ (∀ err : Error, resp.StatusCode = 200 → resp.Body = .error err →
          c.request n method endpoint params = .error ("reading response: " ++ err)) := by
  have herr : resp.StatusCode ≠ 200 →
      c.request n method endpoint params
        = .error ("API returned status code " ++ String.mk (natString resp.StatusCode)) := by
    intro hs
    unfold TodoistClient.request
    simp only [hnew, hdo, hs, ne_eq, not_false_eq_true, if_true]
  refine ⟨herr, ?_, ?_, ?_, ?_, ?_⟩
  · intro hs
    rw [herr (by omega), hs, natString_401]
    rfl
  · intro body hs hb
    unfold TodoistClient.request
    simp only [hnew, hdo, hs, hb, ne_eq, not_true_eq_false, if_false]
  · intro rt hm he hp hs
    subst hm he hp
    unfold TodoistClient.GetProjects
    rw [herr hs]
  · intro rt k projectID since hm he hp hs
    subst hm he hp
    unfold TodoistClient.GetCompletedTasks
    rw [herr hs]
  · intro err hs hb
    unfold TodoistClient.request
    simp only [hnew, hdo, hs, hb, ne_eq, not_true_eq_false, if_false]

theorem request_status_contract_witness :
    deniedClient.request 0 "GET" "projects" [] = .error "API returned status code 401"
      ∧ deniedClient.GetProjects sampleRuntime 0 = .error "API returned status code 401"
      ∧ sampleClient.request 0 "GET" "projects" [] = .ok [1] := by
  have h := request_status_contract deniedClient 0 "GET" "projects" []
    ⟨401, .error "unexpected EOF"⟩ rfl rfl
  have h2 := request_status_contract sampleClient 0 "GET" "projects" [] ⟨200, .ok [1]⟩ rfl
    (by decide)
  refine ⟨h.2.1 rfl, ?_, h2.2.2.1 [1] rfl rfl⟩
  rw [h.2.2.2.1 sampleRuntime rfl rfl rfl (by decide)]
  decide

/-! ## main -/

/-- Claim C10 fails as stated: in a run with the token set, the project found
and no completed task, standard output holds the line `Found project: Canopy
(ID: 42)` before the message, so it is not the message alone. -/
theorem main_prints_found_project :
    main sampleRuntime
        = ("Found project: Canopy (ID: 42)\nNo completed tasks found in the last week.\n", 0)
      ∧ (main sampleRuntime).1 ≠ "No completed tasks found in the last week.\n" := by
  refine ⟨by decide, by decide⟩

/-- Claim C10 as amended: in every run in which the token is set, the project
is found and the service returns no completed task, standard output is the
line `Found project: NAME (ID: ID)` followed by the line `No completed tasks
found in the last week.`, and the exit code is 0. -/
theorem main_no_tasks (rt : Runtime) (project : Project)
    (htoken : rt.Getenv "TODOIST_API_TOKEN" ≠ "")
    (hfind : ((NewTodoistClient rt (rt.Getenv "TODOIST_API_TOKEN")).FindProjectByName rt 0
      "Canopy").2 = .ok (some project))
    (htasks : (NewTodoistClient rt (rt.Getenv "TODOIST_API_TOKEN")).GetCompletedTasks rt 1 1
      project.ID ((rt.Now 0).AddDate 0 0 (-7)) = .ok []) :
    main rt = ("Found project: " ++ project.Name ++ " (ID: " ++ project.ID ++ ")\n"
      ++ "No completed tasks found in the last week.\n", 0) := by
  have hout : ((NewTodoistClient rt (rt.Getenv "TODOIST_API_TOKEN")).FindProjectByName rt 0
      "Canopy").1 = "Found project: " ++ project.Name ++ " (ID: " ++ project.ID ++ ")\n" := by
    unfold TodoistClient.FindProjectByName at hfind ⊢
    cases hg : (NewTodoistClient rt (rt.Getenv "TODOIST_API_TOKEN")).GetProjects rt 0 with
    | error e => rw [hg] at hfind; simp at hfind
    | ok ps =>
      rw [hg] at hfind
      simp only [Except.ok.injEq] at hfind
      simp only [findLoop_fst rt "Canopy" ps project hfind]
  unfold main
  simp only [htoken, if_false]
  generalize hr : (NewTodoistClient rt (rt.Getenv "TODOIST_API_TOKEN")).FindProjectByName rt 0
    "Canopy" = r at hfind hout
  obtain ⟨out, res⟩ := r
  simp only at hfind hout
  subst hfind hout
  simp only [htasks, List.length_nil, if_true]

theorem main_no_tasks_witness :
    main sampleRuntime
      = ("Found project: Canopy (ID: 42)\nNo completed tasks found in the last week.\n", 0) := by
  rw [main_no_tasks sampleRuntime ⟨"42", "Canopy"⟩ (by decide) (by decide) (by decide)]
  decide

/-- Claim C4 fails as stated: in the run whose three completed tasks are a
top-level task, a subtask with the description `note` and a second top-level
task, the report has one blank line before the line of the first task (the one
that ends the header) and two blank lines before the line of the second
top-level task. -/
theorem main_report_blank_lines :
    main reportRuntime
        = ("Found project: Canopy (ID: 42)\n\n\u00f0\u0178\u201c\u2039 Completed Tasks in #Canopy (2024-06-03 to 2024-06-10)\n========================================================\nTotal completed: 3\n\n* a (completed: 2024-01-15 10:30:00)\n  - s (completed: 2024-01-15 11:00:00)\n    note\n\n\n* b (completed: 2024-01-16 09:00:00)\n", 0)
      ∧ blankLinesBefore
          "Found project: Canopy (ID: 42)\n\n\u00f0\u0178\u201c\u2039 Completed Tasks in #Canopy (2024-06-03 to 2024-06-10)\n========================================================\nTotal completed: 3\n\n"
        = 1
      ∧ blankLinesBefore
          "Found project: Canopy (ID: 42)\n\n\u00f0\u0178\u201c\u2039 Completed Tasks in #Canopy (2024-06-03 to 2024-06-10)\n========================================================\nTotal completed: 3\n\n* a (completed: 2024-01-15 10:30:00)\n  - s (completed: 2024-01-15 11:00:00)\n    note\n\n\n"
        = 2 := by
  refine ⟨by decide, by decide, by decide⟩

/-- Claim C4 as amended: in every run of `main` in which the token is set, the
project is found and the completed tasks are a top-level task A, a subtask S
and a top-level task B, where A and S have empty descriptions, standard output
is the text `head` printed before the tasks (the found-project line and the
header), the line of A, the line of S, one blank line and the block of B, which
starts with its marker; the line of A is preceded by exactly one blank line, the
one that ends the header, the line of S by none, and the line of B by exactly
one. -/
theorem main_report_group_gap (rt : Runtime) (project : Project) (A S B : Task)
    (htoken : rt.Getenv "TODOIST_API_TOKEN" ≠ "")
    (hfind : ((NewTodoistClient rt (rt.Getenv "TODOIST_API_TOKEN")).FindProjectByName rt 0
      "Canopy").2 = .ok (some project))
    (htasks : (NewTodoistClient rt (rt.Getenv "TODOIST_API_TOKEN")).GetCompletedTasks rt 1 1
      project.ID ((rt.Now 0).AddDate 0 0 (-7)) = .ok [A, S, B])
    (hA : A.ParentID = none) (hS : S.ParentID ≠ none) (hB : B.ParentID = none)
    (hAd : A.Description = "") (hSd : S.Description = "") :
    ∃ head : String,
      head = "Found project: " ++ project.Name ++ " (ID: " ++ project.ID ++ ")\n"
          ++ reportHeader ((rt.Now 0).AddDate 0 0 (-7)) (rt.Now 2) 3
        ∧ main rt = (head ++ taskLine rt.Local A ++ "\n" ++ taskLine rt.Local S ++ "\n" ++ "\n"
            ++ formatTask rt.Local Task.zero B ++ "\n", 0)
        ∧ (∃ rest : String, formatTask rt.Local Task.zero B = "* " ++ rest)
        ∧ blankLinesBefore head = 1
        ∧ blankLinesBefore (head ++ taskLine rt.Local A ++ "\n") = 0
        ∧ blankLinesBefore
            (head ++ taskLine rt.Local A ++ "\n" ++ taskLine rt.Local S ++ "\n" ++ "\n") = 1 := by
  have hout : ((NewTodoistClient rt (rt.Getenv "TODOIST_API_TOKEN")).FindProjectByName rt 0
      "Canopy").1 = "Found project: " ++ project.Name ++ " (ID: " ++ project.ID ++ ")\n" := by
    unfold TodoistClient.FindProjectByName at hfind ⊢
    cases hg : (NewTodoistClient rt (rt.Getenv "TODOIST_API_TOKEN")).GetProjects rt 0 with
    | error e => rw [hg] at hfind; simp at hfind
    | ok ps =>
      rw [hg] at hfind
      simp only [Except.ok.injEq] at hfind
      simp only [findLoop_fst rt "Canopy" ps project hfind]
  obtain ⟨la, hla⟩ := taskLine_last rt.Local A
  obtain ⟨ls, hls⟩ := taskLine_last rt.Local S
  obtain ⟨lh, hlh⟩ := reportHeader_data ((rt.Now 0).AddDate 0 0 (-7)) (rt.Now 2)
  refine ⟨_, rfl, ?_, ?_, ?_, ?_, ?_⟩
  · unfold main
    simp only [htoken, if_false]
    generalize hr : (NewTodoistClient rt (rt.Getenv "TODOIST_API_TOKEN")).FindProjectByName rt 0
      "Canopy" = r at hfind hout
    obtain ⟨out, res⟩ := r
    simp only at hfind hout
    subst hfind hout
    simp only [htasks, printTasks_three rt.Local A S B hA hS hB hAd hSd]
    simp [String.append_assoc]
  · have := formatTask_start rt.Local Task.zero B (by simp [Task.zero])
    simpa [hB] using this
  · have e : "Found project: " ++ project.Name ++ " (ID: " ++ project.ID ++ ")\n"
          ++ reportHeader ((rt.Now 0).AddDate 0 0 (-7)) (rt.Now 2) 3
        = ⟨(("Found project: " ++ project.Name ++ " (ID: " ++ project.ID ++ ")\n").data ++ lh)
            ++ '3' :: List.replicate 2 '\n'⟩ := by
      apply String.ext
      simp only [String.data_append, hlh, List.append_assoc]
    rw [e, blankLinesBefore_append _ _ (by decide)]
  · have e : "Found project: " ++ project.Name ++ " (ID: " ++ project.ID ++ ")\n"
          ++ reportHeader ((rt.Now 0).AddDate 0 0 (-7)) (rt.Now 2) 3
          ++ taskLine rt.Local A ++ "\n"
        = ⟨(("Found project: " ++ project.Name ++ " (ID: " ++ project.ID ++ ")\n"
            ++ reportHeader ((rt.Now 0).AddDate 0 0 (-7)) (rt.Now 2) 3).data ++ la)
            ++ ')' :: List.replicate 1 '\n'⟩ := by
      apply String.ext
      simp [String.data_append, hla]
    rw [e, blankLinesBefore_append _ _ (by decide)]
  · have e : "Found project: " ++ project.Name ++ " (ID: " ++ project.ID ++ ")\n"
          ++ reportHeader ((rt.Now 0).AddDate 0 0 (-7)) (rt.Now 2) 3
          ++ taskLine rt.Local A ++ "\n" ++ taskLine rt.Local S ++ "\n" ++ "\n"
        = ⟨(("Found project: " ++ project.Name ++ " (ID: " ++ project.ID ++ ")\n"
            ++ reportHeader ((rt.Now 0).AddDate 0 0 (-7)) (rt.Now 2) 3).data
              ++ la ++ ')' :: '\n' :: ls)
            ++ ')' :: List.replicate 2 '\n'⟩ := by
      apply String.ext
      simp [String.data_append, hla, hls]
    rw [e, blankLinesBefore_append _ _ (by decide)]

theorem main_report_group_gap_witness :
    main gapRuntime
      = ("Found project: Canopy (ID: 42)\n\n\u00f0\u0178\u201c\u2039 Completed Tasks in #Canopy (2024-06-03 to 2024-06-10)\n========================================================\nTotal completed: 3\n\n* a (completed: 2024-01-15 10:30:00)\n  - t (completed: 2024-01-15 11:00:00)\n\n* b (completed: 2024-01-16 09:00:00)\n", 0) := by
  obtain ⟨head, hhead, hmain, -⟩ := main_report_group_gap gapRuntime ⟨"42", "Canopy"⟩
    sampleA sampleT sampleB (by decide) (by decide) (by decide) rfl (by decide) rfl rfl rfl
  rw [hmain, hhead]
  decide

end Noteist
